import Mathlib

/-!
Shallow embedding of `jedisasm.py`, a JEDEC fuse-map disassembler for
classic PAL/GAL devices, together with proofs about the embedded code.

Conventions used throughout:
* A fuse map is modelled as a total valuation `Nat → Nat`.  The Python code
  stores it as a list and every device-table index it reads is below 2194
  (the GAL16V8 fuse count), so a total valuation is a faithful model of the
  in-range reads the device layer performs.
* Characters and text are modelled with `Char` / `List Char`.
* Python exceptions are modelled with `Option`/`Except`: `none` (or
  `Except.error`) stands for a raised exception, and — in the tokenizer
  only, where it is explicitly documented — for a non-terminating loop.
-/

/-! ## Term decoder (`is_term_nonzero`, `collect_and_terms`) -/

/-- Embeds `is_term_nonzero(fusemap, indices)` (jedisasm.py lines 72-77).
The Python loop `for i in range(lo, hi, 2)` visits `(hi - lo + 1) / 2`
indices, the k-th being `lo + 2*k`; it returns `False` as soon as a pair
`fusemap[i] == 0 and fusemap[i+1] == 0` is found, else `True`.
The `indices` tuple is passed as its two components `lo`, `hi`. -/
def is_term_nonzero (fusemap : Nat → Nat) (lo hi : Nat) : Bool :=
  (List.range ((hi - lo + 1) / 2)).all
    (fun k => !(fusemap (lo + 2 * k) == 0 && fusemap (lo + 2 * k + 1) == 0))

/-- Embeds `collect_and_terms(fusemap, indices)` (jedisasm.py lines 79-80):
`ANDList([i for i in range(hi - lo) if fusemap[lo + i] == 0])`. -/
def collect_and_terms (fusemap : Nat → Nat) (lo hi : Nat) : List Nat :=
  (List.range (hi - lo)).filter (fun i => fusemap (lo + i) == 0)

/-- Pointwise fuse update, used to state single-fuse sensitivity facts. -/
def update_fuse (f : Nat → Nat) (i v : Nat) : Nat → Nat :=
  fun j => if j = i then v else f j

/-! ## JEDEC container tokenizer (`jedec_commands`, lines 11-31) -/

/-- CR/LF folding done inside the read loop:
`if ch in ("\r", "\n"): ch = " "`. -/
def fold_crlf (c : Char) : Char :=
  if c = '\r' ∨ c = '\n' then ' ' else c

/-- `buffer.lstrip()`: drop leading whitespace. -/
def lstrip (s : List Char) : List Char :=
  s.dropWhile Char.isWhitespace

/-- The preamble loop of `jedec_commands` (lines 16-20): read characters,
discarding them, until the first `*`; at end of file (`fp.read(1)` returns
the empty string) the generator returns without yielding anything, which we
model by `none`. -/
def skip_preamble : List Char → Option (List Char)
  | [] => none
  | c :: rest => if c = '*' then some rest else skip_preamble rest

/-- The command-reading loop of `jedec_commands` (lines 21-31), one
character per step.  On `*` the accumulated buffer is yielded (lstripped)
and a fresh buffer is started; on ETX (`"\x03"`) the generator returns.
At end of file `fp.read(1)` returns the empty string `""`, which is neither
`"*"` nor `"\x03"`; the loop body appends `""` to the buffer (a no-op) and
reads again, so the Python loop repeats the very same state forever and the
generator never terminates — see `inner_step` below for the one-iteration
state function.  We model that non-termination by `none`. -/
def cmd_loop : List Char → List Char → List (List Char) → Option (List (List Char))
  | [], _, _ => none
  | c :: rest, buffer, acc =>
    if c = '*' then cmd_loop rest [] (acc ++ [lstrip buffer])
    else if c = '\x03' then some acc
    else cmd_loop rest (buffer ++ [fold_crlf c]) acc

/-- Embeds the generator `jedec_commands(fp)`: the full (finite) list of
commands it yields, or `none` when the Python loop never terminates. -/
def jedec_commands (input : List Char) : Option (List (List Char)) :=
  match skip_preamble input with
  | none => some []
  | some rest => cmd_loop rest [] []

/-- Exit values of one iteration of the inner `while ch != "*"` loop. -/
inductive LoopExit where
  | star (buffer rest : List Char)
  | etx
deriving DecidableEq

/-- One iteration of the inner read loop of `jedec_commands`, as a state
function: `Sum.inl` when the loop exits (a `*` completes the buffered
command, an ETX ends the generator), `Sum.inr (input, buffer)` when it
continues with the new state.  At end of file the state is returned
unchanged, which is exactly why the Python loop never terminates there. -/
def inner_step : List Char → List Char → LoopExit ⊕ (List Char × List Char)
  | [], buffer => Sum.inr ([], buffer)
  | c :: rest, buffer =>
    if c = '*' then Sum.inl (LoopExit.star buffer rest)
    else if c = '\x03' then Sum.inl LoopExit.etx
    else Sum.inr (rest, buffer ++ [fold_crlf c])

/-! ## JEDEC fuse-map loader (`load_jedec`, lines 33-56) -/

/-- Models `int(s, 10)` on the strings a JEDEC file carries: optional
surrounding whitespace around a non-empty run of decimal digits.  (Python's
`int` also accepts signs and underscores; no command of a well-formed JEDEC
file produces those, and on malformed text both raise / return `none`.) -/
def parse_int (s : List Char) : Option Nat :=
  let t := ((s.dropWhile Char.isWhitespace).reverse.dropWhile Char.isWhitespace).reverse
  if t ≠ [] ∧ t.all Char.isDigit then
    some (t.foldl (fun n c => n * 10 + (c.toNat - '0'.toNat)) 0)
  else none

/-- `int(state)` for a single digit character written by an `L` command. -/
def char_digit (c : Char) : Option Nat :=
  if c.isDigit then some (c.toNat - '0'.toNat) else none

/-- `c.split(maxsplit=1)` followed by the two-element unpacking
`pos, data = ...` (line 51): leading whitespace is skipped, the first
whitespace-separated token is split off, and the remainder loses the
separating whitespace run; if fewer than two fields result, the Python
unpacking raises `ValueError`. -/
def split_once (s : List Char) : Option (List Char × List Char) :=
  let s1 := s.dropWhile Char.isWhitespace
  let tok := s1.takeWhile (fun c => !c.isWhitespace)
  let rest := (s1.dropWhile (fun c => !c.isWhitespace)).dropWhile Char.isWhitespace
  if tok = [] ∨ rest = [] then none else some (tok, rest)

/-- The accumulator of the command loop of `load_jedec` (lines 38-48):
`num_fuses` (`None` until a `QF` command), `default` and the collected `L`
command payloads. -/
structure LoadAcc where
  num_fuses : Option Nat
  default : Nat
  fuse_list : List (List Char)
deriving DecidableEq

/-- One step of the `for cmd in jedec_commands(fp)` loop (lines 41-48):
`QF` sets the fuse count, `F` the default value, `L` queues a payload, and
any other command is ignored. -/
def process_cmd (acc : LoadAcc) (cmd : List Char) : Option LoadAcc :=
  match cmd with
  | 'Q' :: 'F' :: digits =>
    match parse_int digits with
    | some n => some ⟨some n, acc.default, acc.fuse_list⟩
    | none => none
  | 'F' :: digits =>
    match parse_int digits with
    | some n => some ⟨acc.num_fuses, n, acc.fuse_list⟩
    | none => none
  | 'L' :: payload => some ⟨acc.num_fuses, acc.default, acc.fuse_list ++ [payload]⟩
  | _ => some acc

/-- The command loop, threading exceptions. -/
def process_loop : LoadAcc → List (List Char) → Option LoadAcc
  | acc, [] => some acc
  | acc, c :: cs =>
    match process_cmd acc c with
    | none => none
    | some a => process_loop a cs

/-- The write loop `for fuse, state in zip(range(pos, pos+len(data)), data)`
(lines 54-55): each digit character is converted with `int(state)` and
stored at the next position; a non-digit raises `ValueError`, an
out-of-range position raises `IndexError` (both modelled by `none`). -/
def apply_write : List Nat → Nat → List Char → Option (List Nat)
  | fm, _, [] => some fm
  | fm, pos, c :: cs =>
    match char_digit c with
    | none => none
    | some d => if pos < fm.length then apply_write (fm.set pos d) (pos + 1) cs else none

/-- Processing of one queued `L` payload (lines 51-55): split into position
and data, strip the spaces of the data (`data.replace(" ", "")`), parse the
position and write the digits. -/
def write_cmd (fm : List Nat) (c : List Char) : Option (List Nat) := do
  let pd ← split_once c
  let pos ← parse_int pd.1
  apply_write fm pos (pd.2.filter (fun ch => ch ≠ ' '))

/-- The `for c in fuse_list` loop (lines 50-55). -/
def write_loop : List Nat → List (List Char) → Option (List Nat)
  | fm, [] => some fm
  | fm, c :: cs =>
    match write_cmd fm c with
    | none => none
    | some fm2 => write_loop fm2 cs

/-- Embeds `load_jedec(fp)` (lines 33-56): tokenize, fold the commands,
allocate `[default] * num_fuses` (a still-`None` `num_fuses` raises
`TypeError`) and apply every queued `L` write in file order. -/
def load_jedec (input : List Char) : Option (List Nat) :=
  match jedec_commands input with
  | none => none
  | some cmds =>
    match process_loop ⟨none, 0, []⟩ cmds with
    | none => none
    | some acc =>
      match acc.num_fuses with
      | none => none
      | some qf => write_loop (List.replicate qf acc.default) acc.fuse_list

/-- Parses an `L` payload into (position, digit values), without the
interleaved bounds checking of `write_cmd`; used to state what a
well-formed file's `L` commands denote. -/
def digits_of : List Char → Option (List Nat)
  | [] => some []
  | c :: cs =>
    match char_digit c with
    | none => none
    | some d =>
      match digits_of cs with
      | none => none
      | some ds => some (d :: ds)

/-- The (position, digits) denotation of one `L` payload. -/
def parse_write (c : List Char) : Option (Nat × List Nat) := do
  let pd ← split_once c
  let pos ← parse_int pd.1
  let ds ← digits_of (pd.2.filter (fun ch => ch ≠ ' '))
  some (pos, ds)

/-- All `L` payloads of a file, parsed. -/
def parse_writes : List (List Char) → Option (List (Nat × List Nat))
  | [] => some []
  | c :: cs =>
    match parse_write c with
    | none => none
    | some w =>
      match parse_writes cs with
      | none => none
      | some ws => some (w :: ws)

/-- Last-write-wins semantics: the value a position holds after all `L`
writes have been applied in file order over the default fill. -/
def last_write_value (writes : List (Nat × List Nat)) (default p : Nat) : Nat :=
  writes.foldl
    (fun v w => if w.1 ≤ p ∧ p < w.1 + w.2.length then w.2.getD (p - w.1) 0 else v)
    default

/-! ## Expressions and the device-model layer -/

/-- The `ANDList` / `ORList` tagging of jedisasm.py lines 62-65: an AND
node holds the literal (column) positions of one product term, an OR node
holds the AND nodes of one sum-of-products. -/
inductive Expr where
  | andE (lits : List Nat)
  | orE (terms : List (List Nat))
deriving DecidableEq

/-- The AND nodes contained in an expression. -/
def and_nodes : Expr → List (List Nat)
  | Expr.andE lits => [lits]
  | Expr.orE terms => terms

/-- Embeds `inverted(x)` (lines 67-70).  Pin names are never empty, so the
`x[0]` access of the Python code cannot fail on the inputs it receives. -/
def inverted (x : String) : String :=
  if x.startsWith "!" then x.drop 1 else "!" ++ x

/-- The generated default pin map `["PIN%02d" % x for x in range(1, 21)]`
(line 96). -/
def default_pinmap : List String :=
  ["PIN01", "PIN02", "PIN03", "PIN04", "PIN05", "PIN06", "PIN07", "PIN08",
   "PIN09", "PIN10", "PIN11", "PIN12", "PIN13", "PIN14", "PIN15", "PIN16",
   "PIN17", "PIN18", "PIN19", "PIN20"]

/-- `PALBase.get_pin_name` (lines 98-99): `self.pinmap[pin-1]`.  Every pin
number the device tables carry lies in `[1, 20]` and the pin map has 20
entries, so the default value of `getD` is never reached there. -/
def get_pin_name (pinmap : List String) (pin : Nat) : String :=
  pinmap.getD (pin - 1) ""

/-- One iteration of the `for pin, inv in self.get_input_map()` loop of
`PALBase.get_input_names` (lines 106-113): append the pin's name and its
negation, negated-first when `inv` holds. -/
def input_names_step (pinmap : List String) (names : List String) (pi : Nat × Bool) :
    List String :=
  let name := get_pin_name pinmap pi.1
  if pi.2 then names ++ [inverted name, name] else names ++ [name, inverted name]

/-- `PALBase.get_input_names` (lines 101-114), parameterized by the
variant's `get_input_map()` result. -/
def build_input_names (pinmap : List String) (imap : List (Nat × Bool)) : List String :=
  imap.foldl (input_names_step pinmap) []

/-- One step of the `for term_fuses in config.terms_fuses` loop shared by
every variant's `get_macrocell_eqns`: a live row's collected terms are
appended when non-empty (Python list truthiness). -/
def d_term_step (fusemap : Nat → Nat) (d_terms : List (List Nat)) (tf : Nat × Nat) :
    List (List Nat) :=
  if is_term_nonzero fusemap tf.1 tf.2 then
    let terms := collect_and_terms fusemap tf.1 tf.2
    if terms = [] then d_terms else d_terms ++ [terms]
  else d_terms

/-- The product-term rows of a macrocell that survive into its OR node. -/
def build_d_terms (fusemap : Nat → Nat) (rows : List (Nat × Nat)) : List (List Nat) :=
  rows.foldl (d_term_step fusemap) []

/-- The closed set of device variants a constructor can produce. -/
inductive DeviceKind where
  | P16L8
  | G16V8AS
  | G16V8MA
  | G16V8MS
deriving DecidableEq

/-! ### PAL16L8 (`P16L8`, lines 119-184) -/

/-- `P16L8.OLMC` (lines 125-129). -/
structure P16L8.OLMC where
  pin : Nat
  oe_fuses : Nat × Nat
  terms_fuses : List (Nat × Nat)
deriving DecidableEq

/-- The 7 product-term rows `[(s, s+32) for s in range(base, base+224, 32)]`
of one macrocell: starts `base, base+32, …, base+192`. -/
def term_rows (base : Nat) : List (Nat × Nat) :=
  (List.range 7).map (fun k => (base + 32 * k, base + 32 * k + 32))

/-- `P16L8.macrocell_config` (lines 131-140). -/
def P16L8.macrocell_config : List P16L8.OLMC :=
  [⟨19, (0, 32), term_rows 32⟩,
   ⟨18, (256, 288), term_rows 288⟩,
   ⟨17, (512, 544), term_rows 544⟩,
   ⟨16, (768, 800), term_rows 800⟩,
   ⟨15, (1024, 1056), term_rows 1056⟩,
   ⟨14, (1280, 1312), term_rows 1312⟩,
   ⟨13, (1536, 1568), term_rows 1568⟩,
   ⟨12, (1792, 1824), term_rows 1824⟩]

/-- `P16L8.is_out_inverted` (lines 161-167): find the macrocell driving the
pin (`for … break … else` = first match, `False` when none) and test its OE
row for liveness. -/
def P16L8.is_out_inverted (fusemap : Nat → Nat) (pin : Nat) : Bool :=
  match P16L8.macrocell_config.find? (fun c => c.pin == pin) with
  | none => false
  | some c => is_term_nonzero fusemap c.oe_fuses.1 c.oe_fuses.2

/-- `P16L8.get_input_map` (lines 142-159). -/
def P16L8.get_input_map (fusemap : Nat → Nat) : List (Nat × Bool) :=
  [(2, false), (1, false), (3, false), (18, P16L8.is_out_inverted fusemap 18),
   (4, false), (17, P16L8.is_out_inverted fusemap 17),
   (5, false), (16, P16L8.is_out_inverted fusemap 16),
   (6, false), (15, P16L8.is_out_inverted fusemap 15),
   (7, false), (14, P16L8.is_out_inverted fusemap 14),
   (8, false), (13, P16L8.is_out_inverted fusemap 13),
   (9, false), (11, false)]

/-- `P16L8`'s instantiation of `PALBase.get_input_names`. -/
def P16L8.get_input_names (fusemap : Nat → Nat) (pinmap : List String) : List String :=
  build_input_names pinmap (P16L8.get_input_map fusemap)

/-- `P16L8.get_macrocell_eqns` (lines 169-184): an `.oe` equation when the
OE row is live and collects at least one literal, then the OR of the live,
non-empty product-term rows when there is at least one. -/
def P16L8.get_macrocell_eqns (fusemap : Nat → Nat) (pinmap : List String)
    (config : P16L8.OLMC) : List (String × Expr) :=
  let name := get_pin_name pinmap config.pin
  let oe_part :=
    if is_term_nonzero fusemap config.oe_fuses.1 config.oe_fuses.2 then
      let oe_terms := collect_and_terms fusemap config.oe_fuses.1 config.oe_fuses.2
      if oe_terms = [] then [] else [(name ++ ".oe", Expr.andE oe_terms)]
    else []
  let d_terms := build_d_terms fusemap config.terms_fuses
  oe_part ++ (if d_terms = [] then [] else [(name, Expr.orE d_terms)])

/-! ### GAL16V8 common table (`G16V8xx`, lines 186-214) -/

/-- `G16V8xx.OLMC` (lines 192-198). -/
structure G16V8xx.OLMC where
  pin : Nat
  oe_fuses : Nat × Nat
  terms_fuses : List (Nat × Nat)
  ac1_fuse : Nat
  xor_fuse : Nat
deriving DecidableEq

/-- `G16V8xx.macrocell_config` (lines 200-209). -/
def G16V8xx.macrocell_config : List G16V8xx.OLMC :=
  [⟨19, (0, 32), term_rows 32, 2120, 2048⟩,
   ⟨18, (256, 288), term_rows 288, 2121, 2049⟩,
   ⟨17, (512, 544), term_rows 544, 2122, 2050⟩,
   ⟨16, (768, 800), term_rows 800, 2123, 2051⟩,
   ⟨15, (1024, 1056), term_rows 1056, 2124, 2052⟩,
   ⟨14, (1280, 1312), term_rows 1312, 2125, 2053⟩,
   ⟨13, (1536, 1568), term_rows 1568, 2126, 2054⟩,
   ⟨12, (1792, 1824), term_rows 1824, 2127, 2055⟩]

/-! ### GAL16V8 Complex (`G16V8MA`, lines 216-267) -/

/-- `G16V8MA.__init__` (lines 220-223): raises
`TypeError("incorrect device chosen")` unless `fuse[2192] = 1` and
`fuse[2193] = 1`.  (The `PALBase` constructor only stores the fuse map and
resolves the pin map; it cannot fail.) -/
def G16V8MA.init (fusemap : Nat → Nat) : Except String DeviceKind :=
  if fusemap 2192 ≠ 1 ∨ fusemap 2193 ≠ 1 then Except.error "incorrect device chosen"
  else Except.ok DeviceKind.G16V8MA

/-- `G16V8MA.is_out_inverted` (lines 244-250). -/
def G16V8MA.is_out_inverted (fusemap : Nat → Nat) (pin : Nat) : Bool :=
  match G16V8xx.macrocell_config.find? (fun c => c.pin == pin) with
  | none => false
  | some c =>
    is_term_nonzero fusemap c.oe_fuses.1 c.oe_fuses.2 && fusemap c.xor_fuse == 0

/-- `G16V8MA.get_input_map` (lines 225-242). -/
def G16V8MA.get_input_map (fusemap : Nat → Nat) : List (Nat × Bool) :=
  [(2, false), (1, false), (3, false), (18, G16V8MA.is_out_inverted fusemap 18),
   (4, false), (17, G16V8MA.is_out_inverted fusemap 17),
   (5, false), (16, G16V8MA.is_out_inverted fusemap 16),
   (6, false), (15, G16V8MA.is_out_inverted fusemap 15),
   (7, false), (14, G16V8MA.is_out_inverted fusemap 14),
   (8, false), (13, G16V8MA.is_out_inverted fusemap 13),
   (9, false), (11, false)]

/-- `G16V8MA`'s instantiation of `PALBase.get_input_names`. -/
def G16V8MA.get_input_names (fusemap : Nat → Nat) (pinmap : List String) : List String :=
  build_input_names pinmap (G16V8MA.get_input_map fusemap)

/-- `G16V8MA.get_macrocell_eqns` (lines 252-267); textually identical to
the `P16L8` method. -/
def G16V8MA.get_macrocell_eqns (fusemap : Nat → Nat) (pinmap : List String)
    (config : G16V8xx.OLMC) : List (String × Expr) :=
  let name := get_pin_name pinmap config.pin
  let oe_part :=
    if is_term_nonzero fusemap config.oe_fuses.1 config.oe_fuses.2 then
      let oe_terms := collect_and_terms fusemap config.oe_fuses.1 config.oe_fuses.2
      if oe_terms = [] then [] else [(name ++ ".oe", Expr.andE oe_terms)]
    else []
  let d_terms := build_d_terms fusemap config.terms_fuses
  oe_part ++ (if d_terms = [] then [] else [(name, Expr.orE d_terms)])

/-! ### GAL16V8 Registered (`G16V8MS`, lines 269-329) -/

/-- `G16V8MS.__init__` (lines 273-276): raises unless `fuse[2192] = 0` and
`fuse[2193] = 1`. -/
def G16V8MS.init (fusemap : Nat → Nat) : Except String DeviceKind :=
  if fusemap 2192 ≠ 0 ∨ fusemap 2193 ≠ 1 then Except.error "incorrect device chosen"
  else Except.ok DeviceKind.G16V8MS

/-- `G16V8MS.is_out_inverted` (lines 297-303). -/
def G16V8MS.is_out_inverted (fusemap : Nat → Nat) (pin : Nat) : Bool :=
  match G16V8xx.macrocell_config.find? (fun c => c.pin == pin) with
  | none => false
  | some c => fusemap c.ac1_fuse == 0 && fusemap c.xor_fuse == 0

/-- `G16V8MS.get_input_map` (lines 278-295). -/
def G16V8MS.get_input_map (fusemap : Nat → Nat) : List (Nat × Bool) :=
  [(2, false), (19, G16V8MS.is_out_inverted fusemap 19),
   (3, false), (18, G16V8MS.is_out_inverted fusemap 18),
   (4, false), (17, G16V8MS.is_out_inverted fusemap 17),
   (5, false), (16, G16V8MS.is_out_inverted fusemap 16),
   (6, false), (15, G16V8MS.is_out_inverted fusemap 15),
   (7, false), (14, G16V8MS.is_out_inverted fusemap 14),
   (8, false), (13, G16V8MS.is_out_inverted fusemap 13),
   (9, false), (12, G16V8MS.is_out_inverted fusemap 12)]

/-- `G16V8MS`'s instantiation of `PALBase.get_input_names`. -/
def G16V8MS.get_input_names (fusemap : Nat → Nat) (pinmap : List String) : List String :=
  build_input_names pinmap (G16V8MS.get_input_map fusemap)

/-- `G16V8MS.get_macrocell_eqns` (lines 305-329).  `oe_terms` is the OE
row's collected literals when the row is live, else the empty `ANDList`.
With a truthy (non-zero) AC1 fuse, a separate `.oe` equation (when
`oe_terms` is non-empty) and a plain OR equation are emitted; with AC1 = 0,
`oe_terms` is `insert(0, …)`-ed into the D terms when non-empty and a
single merged `.d` equation is emitted when anything survived. -/
def G16V8MS.get_macrocell_eqns (fusemap : Nat → Nat) (pinmap : List String)
    (config : G16V8xx.OLMC) : List (String × Expr) :=
  let name := get_pin_name pinmap config.pin
  let oe_terms :=
    if is_term_nonzero fusemap config.oe_fuses.1 config.oe_fuses.2 then
      collect_and_terms fusemap config.oe_fuses.1 config.oe_fuses.2
    else []
  let d_terms := build_d_terms fusemap config.terms_fuses
  if fusemap config.ac1_fuse ≠ 0 then
    (if oe_terms = [] then [] else [(name ++ ".oe", Expr.andE oe_terms)]) ++
      (if d_terms = [] then [] else [(name, Expr.orE d_terms)])
  else
    let d_terms2 := if oe_terms = [] then d_terms else oe_terms :: d_terms
    if d_terms2 = [] then [] else [(name ++ ".d", Expr.orE d_terms2)]

/-! ### GAL16V8 Simple (`G16V8AS`, lines 331-383) -/

/-- `G16V8AS.__init__` (lines 335-338): raises unless `fuse[2192] = 1` and
`fuse[2193] = 0`. -/
def G16V8AS.init (fusemap : Nat → Nat) : Except String DeviceKind :=
  if fusemap 2192 ≠ 1 ∨ fusemap 2193 ≠ 0 then Except.error "incorrect device chosen"
  else Except.ok DeviceKind.G16V8AS

/-- `G16V8AS.is_out_inverted` (lines 359-365). -/
def G16V8AS.is_out_inverted (fusemap : Nat → Nat) (pin : Nat) : Bool :=
  match G16V8xx.macrocell_config.find? (fun c => c.pin == pin) with
  | none => false
  | some c => fusemap c.ac1_fuse == 0 && fusemap c.xor_fuse == 0

/-- `G16V8AS.get_input_map` (lines 340-357). -/
def G16V8AS.get_input_map (fusemap : Nat → Nat) : List (Nat × Bool) :=
  [(2, false), (1, false), (3, false), (19, G16V8AS.is_out_inverted fusemap 19),
   (4, false), (18, G16V8AS.is_out_inverted fusemap 18),
   (5, false), (17, G16V8AS.is_out_inverted fusemap 17),
   (6, false), (14, G16V8AS.is_out_inverted fusemap 14),
   (7, false), (13, G16V8AS.is_out_inverted fusemap 13),
   (8, false), (12, G16V8AS.is_out_inverted fusemap 12),
   (9, false), (11, false)]

/-- `G16V8AS`'s instantiation of `PALBase.get_input_names`. -/
def G16V8AS.get_input_names (fusemap : Nat → Nat) (pinmap : List String) : List String :=
  build_input_names pinmap (G16V8AS.get_input_map fusemap)

/-- `G16V8AS.get_macrocell_eqns` (lines 367-383): nothing unless AC1 = 0;
otherwise the OE row's collected terms (when the row is live and they are
non-empty) start the D-term list, the live non-empty product rows follow,
and one unsuffixed equation is emitted when the list is non-empty. -/
def G16V8AS.get_macrocell_eqns (fusemap : Nat → Nat) (pinmap : List String)
    (config : G16V8xx.OLMC) : List (String × Expr) :=
  if fusemap config.ac1_fuse = 0 then
    let name := get_pin_name pinmap config.pin
    let d0 :=
      if is_term_nonzero fusemap config.oe_fuses.1 config.oe_fuses.2 then
        let terms := collect_and_terms fusemap config.oe_fuses.1 config.oe_fuses.2
        if terms = [] then [] else [terms]
      else []
    let d_terms := config.terms_fuses.foldl (d_term_step fusemap) d0
    if d_terms = [] then [] else [(name, Expr.orE d_terms)]
  else []

/-- The auto-detecting entry point `G16V8` (lines 385-393), with its
overlapping disjunctive conditions reproduced verbatim. -/
def G16V8 (fusemap : Nat → Nat) : Except String DeviceKind :=
  if fusemap 2192 = 1 ∨ fusemap 2193 = 0 then G16V8AS.init fusemap
  else if fusemap 2192 = 0 ∨ fusemap 2193 ≠ 1 then G16V8MS.init fusemap
  else if fusemap 2192 = 1 ∨ fusemap 2193 ≠ 1 then G16V8MA.init fusemap
  else Except.error "incorrect device chosen"

/-- Whether a constructor raised (`TypeError` in the Python code). -/
def raised (r : Except String DeviceKind) : Bool :=
  match r with
  | Except.error _ => true
  | Except.ok _ => false

/-- The contribution of one product-term row to its macrocell's OR node:
`some` of its collected literals when the row is live and collects at least
one literal, `none` otherwise. -/
def live_row_terms (fusemap : Nat → Nat) (tf : Nat × Nat) : Option (List Nat) :=
  if is_term_nonzero fusemap tf.1 tf.2 then
    let t := collect_and_terms fusemap tf.1 tf.2
    if t = [] then none else some t
  else none

/-! ## Lemmas about the term decoder -/

/-- A 32-fuse row is judged dead exactly when one of its 16 input columns
has both fuses at 0. -/
theorem row_false_iff (f : Nat → Nat) (s : Nat) :
    is_term_nonzero f s (s + 32) = false ↔
      ∃ k, k < 16 ∧ f (s + 2 * k) = 0 ∧ f (s + 2 * k + 1) = 0 := by
  have h16 : (s + 32 - s + 1) / 2 = 16 := by omega
  simp only [is_term_nonzero, h16, List.all_eq_false, List.mem_range,
    Bool.not_eq_true', Bool.not_eq_false, Bool.and_eq_true, beq_iff_eq]

/-- C4: for a 32-fuse row, `is_term_nonzero` returns `false` exactly when
some input column `k < 16` has both of its adjacent fuses `start+2k`,
`start+2k+1` equal to 0, and returns `true` otherwise. -/
theorem is_row_live_false_iff_dead_column (f : Nat → Nat) (s : Nat) :
    (is_term_nonzero f s (s + 32) = false ↔
      ∃ k, k < 16 ∧ f (s + 2 * k) = 0 ∧ f (s + 2 * k + 1) = 0) ∧
    (is_term_nonzero f s (s + 32) = true ↔
      ∀ k, k < 16 → f (s + 2 * k) ≠ 0 ∨ f (s + 2 * k + 1) ≠ 0) := by
  refine ⟨row_false_iff f s, ?_, ?_⟩
  · intro ht k hk
    by_contra hc
    push_neg at hc
    have hf := (row_false_iff f s).mpr ⟨k, hk, hc.1, hc.2⟩
    rw [ht] at hf
    cases hf
  · intro hall
    cases hb : is_term_nonzero f s (s + 32) with
    | false =>
      obtain ⟨k, hk, h0, h1⟩ := (row_false_iff f s).mp hb
      rcases hall k hk with h | h
      · exact absurd h0 h
      · exact absurd h1 h
    | true => rfl

/-- C9 (counterexample to the claim as stated): on the all-zero row every
column is dead and `is_row_live` is `false`, yet setting the single fuse at
position 0 to 1 leaves it `false` — a single-fuse toggle does not flip the
result in general. -/
theorem single_fuse_toggle_does_not_flip :
    is_term_nonzero (fun _ => 0) 0 32 = false ∧
    is_term_nonzero (update_fuse (fun _ => 0) 0 1) 0 32 = false := by decide

/-- C9 (amended): `is_row_live` is `false` on a row with a dead column
`k`; and when `k` is the row's only dead column, setting either of column
`k`'s two fuses to 1 flips the result to `true`. -/
theorem is_row_live_single_dead_sensitivity (f : Nat → Nat) (s k : Nat)
    (hk : k < 16)
    (hdead0 : f (s + 2 * k) = 0) (hdead1 : f (s + 2 * k + 1) = 0)
    (honly : ∀ j, j < 16 → j ≠ k → f (s + 2 * j) ≠ 0 ∨ f (s + 2 * j + 1) ≠ 0) :
    is_term_nonzero f s (s + 32) = false ∧
    is_term_nonzero (update_fuse f (s + 2 * k) 1) s (s + 32) = true ∧
    is_term_nonzero (update_fuse f (s + 2 * k + 1) 1) s (s + 32) = true := by
  refine ⟨(row_false_iff f s).mpr ⟨k, hk, hdead0, hdead1⟩, ?_, ?_⟩
  · cases hb : is_term_nonzero (update_fuse f (s + 2 * k) 1) s (s + 32) with
    | false =>
      obtain ⟨j, hj, h0, h1⟩ := (row_false_iff _ s).mp hb
      by_cases hjk : j = k
      · subst hjk
        simp [update_fuse] at h0
      · have hne0 : s + 2 * j ≠ s + 2 * k := by omega
        have hne1 : s + 2 * j + 1 ≠ s + 2 * k := by omega
        rw [update_fuse] at h0 h1
        rw [if_neg hne0] at h0
        rw [if_neg hne1] at h1
        rcases honly j hj hjk with h | h
        · exact absurd h0 h
        · exact absurd h1 h
    | true => rfl
  · cases hb : is_term_nonzero (update_fuse f (s + 2 * k + 1) 1) s (s + 32) with
    | false =>
      obtain ⟨j, hj, h0, h1⟩ := (row_false_iff _ s).mp hb
      by_cases hjk : j = k
      · subst hjk
        simp [update_fuse] at h1
      · have hne0 : s + 2 * j ≠ s + 2 * k + 1 := by omega
        have hne1 : s + 2 * j + 1 ≠ s + 2 * k + 1 := by omega
        rw [update_fuse] at h0 h1
        rw [if_neg hne0] at h0
        rw [if_neg hne1] at h1
        rcases honly j hj hjk with h | h
        · exact absurd h0 h
        · exact absurd h1 h
    | true => rfl

/-- A fuse map whose 32-fuse row at 0 has exactly one dead column (k = 2,
fuses 4 and 5). -/
def one_dead_column_fuse : Nat → Nat :=
  fun i => if i = 4 ∨ i = 5 then 0 else 1

/-- Witness for `is_row_live_single_dead_sensitivity` at a concrete row
with a single dead column. -/
theorem is_row_live_single_dead_sensitivity_witness :
    is_term_nonzero one_dead_column_fuse 0 32 = false ∧
    is_term_nonzero (update_fuse one_dead_column_fuse (0 + 2 * 2) 1) 0 32 = true ∧
    is_term_nonzero (update_fuse one_dead_column_fuse (0 + 2 * 2 + 1) 1) 0 32 = true :=
  is_row_live_single_dead_sensitivity one_dead_column_fuse 0 2
    (by decide) (by decide) (by decide) (by decide)

/-- C5: `collect_and_terms` returns exactly the relative positions of the
0-fuses of the row, and — on 0/1-valued rows — it is empty exactly when
every fuse of the row is 1. -/
theorem collect_and_terms_zero_positions (f : Nat → Nat) (lo hi : Nat)
    (hbit : ∀ i, i < hi - lo → f (lo + i) = 0 ∨ f (lo + i) = 1) :
    (∀ i, i ∈ collect_and_terms f lo hi ↔ i < hi - lo ∧ f (lo + i) = 0) ∧
    (collect_and_terms f lo hi = [] ↔ ∀ i, i < hi - lo → f (lo + i) = 1) := by
  constructor
  · intro i
    simp [collect_and_terms, List.mem_filter, List.mem_range]
  · rw [collect_and_terms, List.filter_eq_nil_iff]
    constructor
    · intro h i hi
      have := h i (List.mem_range.mpr hi)
      rcases hbit i hi with h0 | h1
      · simp [h0] at this
      · exact h1
    · intro h i hi
      have h1 := h i (List.mem_range.mp hi)
      simp [h1]

/-- Witness for `collect_and_terms_zero_positions` on a concrete row. -/
theorem collect_and_terms_zero_positions_witness :
    (∀ i, i ∈ collect_and_terms one_dead_column_fuse 4 8 ↔
      i < 8 - 4 ∧ one_dead_column_fuse (4 + i) = 0) ∧
    (collect_and_terms one_dead_column_fuse 4 8 = [] ↔
      ∀ i, i < 8 - 4 → one_dead_column_fuse (4 + i) = 1) :=
  collect_and_terms_zero_positions one_dead_column_fuse 4 8 (by decide)

/-! ## Constructor and auto-detection theorems -/

/-- C1: on a fuse map with `fuse[2192] = 1` and `fuse[2193] = 1` (the
Complex pattern; here the all-ones map) the auto-detection entry point
`G16V8` takes its first branch, constructs `G16V8AS`, and raises the
device-mismatch `TypeError` — even though `G16V8MA`'s own constructor
accepts exactly this pattern. -/
theorem g16v8_autodetect_rejects_complex_pattern :
    G16V8 (fun _ => 1) = Except.error "incorrect device chosen" ∧
    G16V8MA.init (fun _ => 1) = Except.ok DeviceKind.G16V8MA := by
  constructor <;> rfl

/-- C7: explicitly constructing `G16V8MS` raises the device-mismatch error
exactly when the configuration fuses are not `(0, 1)`, and `G16V8AS`
exactly when they are not `(1, 0)`. -/
theorem explicit_variant_mismatch (f : Nat → Nat) :
    (raised (G16V8MS.init f) = true ↔ ¬(f 2192 = 0 ∧ f 2193 = 1)) ∧
    (raised (G16V8AS.init f) = true ↔ ¬(f 2192 = 1 ∧ f 2193 = 0)) := by
  constructor
  · rw [G16V8MS.init]
    split
    · next h => simp only [raised, true_iff]; tauto
    · next h => simp only [raised, false_iff]; push_neg at h ⊢; tauto
  · rw [G16V8AS.init]
    split
    · next h => simp only [raised, true_iff]; tauto
    · next h => simp only [raised, false_iff]; push_neg at h ⊢; tauto

/-- Witness for `explicit_variant_mismatch`: the all-ones fuse map matches
neither required pattern, so both explicit constructors raise. -/
theorem explicit_variant_mismatch_witness :
    raised (G16V8MS.init (fun _ => 1)) = true ∧
    raised (G16V8AS.init (fun _ => 1)) = true :=
  ⟨(explicit_variant_mismatch (fun _ => 1)).1.mpr (by decide),
   (explicit_variant_mismatch (fun _ => 1)).2.mpr (by decide)⟩

/-! ## Lemmas about the shared D-term loop -/

/-- One loop step appends the row's contribution (if any) at the end. -/
theorem d_term_step_eq (f : Nat → Nat) (acc : List (List Nat)) (tf : Nat × Nat) :
    d_term_step f acc tf = acc ++ (live_row_terms f tf).toList := by
  unfold d_term_step live_row_terms
  by_cases hl : is_term_nonzero f tf.1 tf.2
  · by_cases ht : collect_and_terms f tf.1 tf.2 = []
    · simp [hl, ht]
    · simp [hl, ht]
  · simp [hl]

/-- The D-term loop, from any starting accumulator, appends exactly the
live non-empty rows' collected literals in table order. -/
theorem foldl_d_term_step (f : Nat → Nat) (rows : List (Nat × Nat))
    (acc : List (List Nat)) :
    rows.foldl (d_term_step f) acc = acc ++ rows.filterMap (live_row_terms f) := by
  induction rows generalizing acc with
  | nil => simp
  | cons r rs ih =>
    rw [List.foldl_cons, ih, d_term_step_eq, List.filterMap_cons]
    cases h : live_row_terms f r <;> simp [Option.toList]

/-- `build_d_terms` is the `filterMap` of the rows' contributions. -/
theorem build_d_terms_eq (f : Nat → Nat) (rows : List (Nat × Nat)) :
    build_d_terms f rows = rows.filterMap (live_row_terms f) := by
  rw [build_d_terms, foldl_d_term_step, List.nil_append]

/-- A row contributes only its own collected literal list. -/
theorem live_row_terms_eq_some (f : Nat → Nat) (tf : Nat × Nat) (t : List Nat)
    (h : live_row_terms f tf = some t) : t = collect_and_terms f tf.1 tf.2 := by
  unfold live_row_terms at h
  by_cases hl : is_term_nonzero f tf.1 tf.2
  · by_cases ht : collect_and_terms f tf.1 tf.2 = []
    · simp [hl, ht] at h
    · simp [hl, ht] at h
      exact h.symm
  · simp [hl] at h

/-! ## Registered-mode merged `.d` equation (C2) -/

/-- A fuse map giving the Registered pattern `(0, 1)`, AC1 = 0 on the pin-19
macrocell, a live all-ones OE row (which collects no literal) and one live
product-term row with a single literal. -/
def ms_cex_fuse : Nat → Nat :=
  fun i => if i = 2192 then 0 else if i = 2120 then 0 else if i = 32 then 0 else 1

/-- C2 (counterexample to the claim as stated): on `ms_cex_fuse` the pin-19
macrocell of the Registered variant has AC1 = 0 and a live OE row, yet the
returned `.d` equation's OR holds only the product-term row — the live OE
row's (empty) AND term was not prepended, because the code prepends only a
non-empty collected list. -/
theorem gal16v8ms_live_oe_not_prepended :
    raised (G16V8MS.init ms_cex_fuse) = false ∧
    (G16V8xx.macrocell_config.headD ⟨0, (0, 0), [], 0, 0⟩).ac1_fuse = 2120 ∧
    ms_cex_fuse 2120 = 0 ∧
    is_term_nonzero ms_cex_fuse 0 32 = true ∧
    G16V8MS.get_macrocell_eqns ms_cex_fuse default_pinmap
        (G16V8xx.macrocell_config.headD ⟨0, (0, 0), [], 0, 0⟩) =
      [("PIN19.d", Expr.orE [[0]])] := by decide

/-- C2 (amended): with AC1 = 0, the Registered variant merges everything
into at most one `.d` equation: the OE row's collected literals are
prepended only when the row is live and collects at least one literal, the
live non-empty product rows follow in table order, and no equation at all
is returned when the merged OR would be empty. -/
theorem gal16v8ms_merged_d_equation (f : Nat → Nat) (pinmap : List String)
    (config : G16V8xx.OLMC) (hac1 : f config.ac1_fuse = 0) :
    G16V8MS.get_macrocell_eqns f pinmap config =
      (let oe := if is_term_nonzero f config.oe_fuses.1 config.oe_fuses.2 then
          collect_and_terms f config.oe_fuses.1 config.oe_fuses.2 else []
       let ds := config.terms_fuses.filterMap (live_row_terms f)
       let merged := if oe = [] then ds else oe :: ds
       if merged = [] then []
       else [(get_pin_name pinmap config.pin ++ ".d", Expr.orE merged)]) := by
  simp only [G16V8MS.get_macrocell_eqns, build_d_terms_eq, hac1, ne_eq,
    not_true_eq_false, if_false]

/-- A fuse map for the witness of `gal16v8ms_merged_d_equation`: Registered
pattern, AC1 = 0 on pin 19, a live OE row with one literal and a live
product-term row with one literal. -/
def ms_wit_fuse : Nat → Nat :=
  fun i => if i = 2192 then 0 else if i = 2120 then 0
    else if i = 0 then 0 else if i = 33 then 0 else 1

/-- Witness for `gal16v8ms_merged_d_equation`: the OE term is prepended and
the merged `.d` equation comes out as computed. -/
theorem gal16v8ms_merged_d_equation_witness :
    G16V8MS.get_macrocell_eqns ms_wit_fuse default_pinmap
        (G16V8xx.macrocell_config.headD ⟨0, (0, 0), [], 0, 0⟩) =
      (let oe := if is_term_nonzero ms_wit_fuse 0 32 then
          collect_and_terms ms_wit_fuse 0 32 else []
       let ds := (term_rows 32).filterMap (live_row_terms ms_wit_fuse)
       let merged := if oe = [] then ds else oe :: ds
       if merged = [] then []
       else [(get_pin_name default_pinmap 19 ++ ".d", Expr.orE merged)]) :=
  gal16v8ms_merged_d_equation ms_wit_fuse default_pinmap
    (G16V8xx.macrocell_config.headD ⟨0, (0, 0), [], 0, 0⟩) (by decide)

/-! ## Simple-mode equations (C6) -/

/-- A fuse map giving the Simple pattern `(1, 0)`, AC1 = 0 on the pin-19
macrocell, a live all-ones OE row and one live single-literal product row. -/
def as_cex_fuse : Nat → Nat :=
  fun i => if i = 2193 then 0 else if i = 2120 then 0 else if i = 32 then 0 else 1

/-- C6 (counterexample to the claim as stated): on `as_cex_fuse` the pin-19
macrocell of the Simple variant has AC1 = 0 and a live OE row, yet the
returned equation's OR holds only the product-term row — the live OE row's
(empty) AND term was not prepended. -/
theorem gal16v8as_live_oe_not_prepended :
    raised (G16V8AS.init as_cex_fuse) = false ∧
    as_cex_fuse 2120 = 0 ∧
    is_term_nonzero as_cex_fuse 0 32 = true ∧
    G16V8AS.get_macrocell_eqns as_cex_fuse default_pinmap
        (G16V8xx.macrocell_config.headD ⟨0, (0, 0), [], 0, 0⟩) =
      [("PIN19", Expr.orE [[0]])] := by decide

/-- C6 (amended): the Simple variant returns no equation when AC1 ≠ 0, and
otherwise at most one unsuffixed equation whose OR is the OE row's
collected literals — included only when the row is live and collects at
least one literal — followed by the live non-empty product rows in table
order; no equation is returned when that list is empty. -/
theorem gal16v8as_eqns_characterization (f : Nat → Nat) (pinmap : List String)
    (config : G16V8xx.OLMC) :
    G16V8AS.get_macrocell_eqns f pinmap config =
      (if f config.ac1_fuse = 0 then
        (let ds := (live_row_terms f config.oe_fuses).toList ++
            config.terms_fuses.filterMap (live_row_terms f)
         if ds = [] then []
         else [(get_pin_name pinmap config.pin, Expr.orE ds)])
       else []) := by
  unfold G16V8AS.get_macrocell_eqns
  split
  · have hd0 : (if is_term_nonzero f config.oe_fuses.1 config.oe_fuses.2 then
        (let terms := collect_and_terms f config.oe_fuses.1 config.oe_fuses.2
         if terms = [] then [] else [terms])
       else ([] : List (List Nat))) = (live_row_terms f config.oe_fuses).toList := by
      by_cases hl : is_term_nonzero f config.oe_fuses.1 config.oe_fuses.2
      · by_cases ht : collect_and_terms f config.oe_fuses.1 config.oe_fuses.2 = []
        · simp [live_row_terms, hl, ht]
        · simp [live_row_terms, hl, ht]
      · simp [live_row_terms, hl]
    simp only [foldl_d_term_step, hd0]
  · rfl


/-! ## Literal-index safety (C10) -/

/-- Every literal collected from a row is below the row's width. -/
theorem collect_and_terms_lt (f : Nat → Nat) (lo hi : Nat) :
    ∀ x ∈ collect_and_terms f lo hi, x < hi - lo := by
  intro x hx
  rw [collect_and_terms, List.mem_filter] at hx
  exact List.mem_range.mp hx.1

/-- The literals collected from a row are strictly increasing. -/
theorem collect_and_terms_pairwise (f : Nat → Nat) (lo hi : Nat) :
    List.Pairwise (· < ·) (collect_and_terms f lo hi) :=
  (List.pairwise_lt_range (hi - lo)).filter _

/-- An AND node coming out of a 32-fuse row is strictly increasing with
all literal indices below 32. -/
theorem collect32_good (f : Nat → Nat) (lo hi : Nat) (hw : hi = lo + 32) :
    List.Pairwise (· < ·) (collect_and_terms f lo hi) ∧
      ∀ x ∈ collect_and_terms f lo hi, x < 32 := by
  refine ⟨collect_and_terms_pairwise f lo hi, fun x hx => ?_⟩
  have := collect_and_terms_lt f lo hi x hx
  omega

/-- Every fuse range of the PAL16L8 table is 32 fuses wide. -/
theorem p16l8_widths :
    ∀ cfg ∈ P16L8.macrocell_config,
      cfg.oe_fuses.2 = cfg.oe_fuses.1 + 32 ∧
        ∀ r ∈ cfg.terms_fuses, r.2 = r.1 + 32 := by decide

/-- Every fuse range of the GAL16V8 table is 32 fuses wide. -/
theorem g16v8_widths :
    ∀ cfg ∈ G16V8xx.macrocell_config,
      cfg.oe_fuses.2 = cfg.oe_fuses.1 + 32 ∧
        ∀ r ∈ cfg.terms_fuses, r.2 = r.1 + 32 := by decide

/-- Every AND node of the merged D-term list originates from one of the
given rows as its collected literal list. -/
theorem mem_filterMap_live (f : Nat → Nat) (rows : List (Nat × Nat))
    (t : List Nat) (ht : t ∈ rows.filterMap (live_row_terms f)) :
    ∃ r ∈ rows, t = collect_and_terms f r.1 r.2 := by
  rw [List.mem_filterMap] at ht
  obtain ⟨r, hr, hsome⟩ := ht
  exact ⟨r, hr, live_row_terms_eq_some f r t hsome⟩

/-- The name-building loop adds exactly two names per input column. -/
theorem foldl_input_names_length (pinmap : List String) (imap : List (Nat × Bool)) :
    ∀ acc : List String,
      (imap.foldl (input_names_step pinmap) acc).length = acc.length + 2 * imap.length := by
  induction imap with
  | nil => intro acc; simp
  | cons p ps ih =>
    intro acc
    rw [List.foldl_cons, ih]
    cases hp : p.2 <;> simp [input_names_step, hp] <;> omega

/-- The PAL16L8 input-name table has 32 entries. -/
theorem p16l8_input_names_length (f : Nat → Nat) (pinmap : List String) :
    (P16L8.get_input_names f pinmap).length = 32 := by
  rw [P16L8.get_input_names, build_input_names, foldl_input_names_length]
  rfl

/-- The GAL16V8-Complex input-name table has 32 entries. -/
theorem g16v8ma_input_names_length (f : Nat → Nat) (pinmap : List String) :
    (G16V8MA.get_input_names f pinmap).length = 32 := by
  rw [G16V8MA.get_input_names, build_input_names, foldl_input_names_length]
  rfl

/-- The GAL16V8-Registered input-name table has 32 entries. -/
theorem g16v8ms_input_names_length (f : Nat → Nat) (pinmap : List String) :
    (G16V8MS.get_input_names f pinmap).length = 32 := by
  rw [G16V8MS.get_input_names, build_input_names, foldl_input_names_length]
  rfl

/-- The GAL16V8-Simple input-name table has 32 entries. -/
theorem g16v8as_input_names_length (f : Nat → Nat) (pinmap : List String) :
    (G16V8AS.get_input_names f pinmap).length = 32 := by
  rw [G16V8AS.get_input_names, build_input_names, foldl_input_names_length]
  rfl

/-- Every AND node of a PAL16L8 macrocell's equations is the collected
literal list of one of the macrocell's fuse rows. -/
theorem p16l8_nodes_origin (f : Nat → Nat) (pinmap : List String) (cfg : P16L8.OLMC) :
    ∀ e ∈ P16L8.get_macrocell_eqns f pinmap cfg, ∀ t ∈ and_nodes e.2,
      t = collect_and_terms f cfg.oe_fuses.1 cfg.oe_fuses.2 ∨
        ∃ r ∈ cfg.terms_fuses, t = collect_and_terms f r.1 r.2 := by
  intro e he t ht
  unfold P16L8.get_macrocell_eqns at he
  simp only [build_d_terms_eq] at he
  rcases List.mem_append.mp he with he | he
  · by_cases hl : is_term_nonzero f cfg.oe_fuses.1 cfg.oe_fuses.2
    · by_cases hoe : collect_and_terms f cfg.oe_fuses.1 cfg.oe_fuses.2 = []
      · simp [hl, hoe] at he
      · simp [hl, hoe] at he
        rw [he] at ht
        simp [and_nodes] at ht
        left
        exact ht
    · simp [hl] at he
  · by_cases hd : cfg.terms_fuses.filterMap (live_row_terms f) = []
    · simp [hd] at he
    · simp [hd] at he
      rw [he] at ht
      exact Or.inr (mem_filterMap_live f cfg.terms_fuses t ht)

/-- Every AND node of a GAL16V8-Complex macrocell's equations is the
collected literal list of one of the macrocell's fuse rows. -/
theorem g16v8ma_nodes_origin (f : Nat → Nat) (pinmap : List String)
    (cfg : G16V8xx.OLMC) :
    ∀ e ∈ G16V8MA.get_macrocell_eqns f pinmap cfg, ∀ t ∈ and_nodes e.2,
      t = collect_and_terms f cfg.oe_fuses.1 cfg.oe_fuses.2 ∨
        ∃ r ∈ cfg.terms_fuses, t = collect_and_terms f r.1 r.2 := by
  intro e he t ht
  unfold G16V8MA.get_macrocell_eqns at he
  simp only [build_d_terms_eq] at he
  rcases List.mem_append.mp he with he | he
  · by_cases hl : is_term_nonzero f cfg.oe_fuses.1 cfg.oe_fuses.2
    · by_cases hoe : collect_and_terms f cfg.oe_fuses.1 cfg.oe_fuses.2 = []
      · simp [hl, hoe] at he
      · simp [hl, hoe] at he
        rw [he] at ht
        simp [and_nodes] at ht
        left
        exact ht
    · simp [hl] at he
  · by_cases hd : cfg.terms_fuses.filterMap (live_row_terms f) = []
    · simp [hd] at he
    · simp [hd] at he
      rw [he] at ht
      exact Or.inr (mem_filterMap_live f cfg.terms_fuses t ht)

/-- Every AND node of a GAL16V8-Registered macrocell's equations is the
collected literal list of one of the macrocell's fuse rows. -/
theorem g16v8ms_nodes_origin (f : Nat → Nat) (pinmap : List String)
    (cfg : G16V8xx.OLMC) :
    ∀ e ∈ G16V8MS.get_macrocell_eqns f pinmap cfg, ∀ t ∈ and_nodes e.2,
      t = collect_and_terms f cfg.oe_fuses.1 cfg.oe_fuses.2 ∨
        ∃ r ∈ cfg.terms_fuses, t = collect_and_terms f r.1 r.2 := by
  intro e he t ht
  unfold G16V8MS.get_macrocell_eqns at he
  simp only [build_d_terms_eq] at he
  by_cases hac : f cfg.ac1_fuse = 0
  · simp only [hac, ne_eq, not_true_eq_false, if_false] at he
    by_cases hl : is_term_nonzero f cfg.oe_fuses.1 cfg.oe_fuses.2
    · by_cases hoe : collect_and_terms f cfg.oe_fuses.1 cfg.oe_fuses.2 = []
      · by_cases hd : cfg.terms_fuses.filterMap (live_row_terms f) = []
        · simp [hl, hoe, hd] at he
        · simp [hl, hoe, hd] at he
          rw [he] at ht
          exact Or.inr (mem_filterMap_live f cfg.terms_fuses t ht)
      · simp [hl, hoe] at he
        rw [he] at ht
        rcases List.mem_cons.mp ht with h | h
        · left
          exact h
        · exact Or.inr (mem_filterMap_live f cfg.terms_fuses t h)
    · by_cases hd : cfg.terms_fuses.filterMap (live_row_terms f) = []
      · simp [hl, hd] at he
      · simp [hl, hd] at he
        rw [he] at ht
        exact Or.inr (mem_filterMap_live f cfg.terms_fuses t ht)
  · simp only [hac, ne_eq, not_false_eq_true, if_true] at he
    rcases List.mem_append.mp he with he | he
    · by_cases hl : is_term_nonzero f cfg.oe_fuses.1 cfg.oe_fuses.2
      · by_cases hoe : collect_and_terms f cfg.oe_fuses.1 cfg.oe_fuses.2 = []
        · simp [hl, hoe] at he
        · simp [hl, hoe] at he
          rw [he] at ht
          simp [and_nodes] at ht
          left
          exact ht
      · simp [hl] at he
    · by_cases hd : cfg.terms_fuses.filterMap (live_row_terms f) = []
      · simp [hd] at he
      · simp [hd] at he
        rw [he] at ht
        exact Or.inr (mem_filterMap_live f cfg.terms_fuses t ht)

/-- Every AND node of a GAL16V8-Simple macrocell's equations is the
collected literal list of one of the macrocell's fuse rows. -/
theorem g16v8as_nodes_origin (f : Nat → Nat) (pinmap : List String)
    (cfg : G16V8xx.OLMC) :
    ∀ e ∈ G16V8AS.get_macrocell_eqns f pinmap cfg, ∀ t ∈ and_nodes e.2,
      t = collect_and_terms f cfg.oe_fuses.1 cfg.oe_fuses.2 ∨
        ∃ r ∈ cfg.terms_fuses, t = collect_and_terms f r.1 r.2 := by
  intro e he t ht
  unfold G16V8AS.get_macrocell_eqns at he
  by_cases hac : f cfg.ac1_fuse = 0
  · simp only [hac, if_pos, foldl_d_term_step] at he
    by_cases hl : is_term_nonzero f cfg.oe_fuses.1 cfg.oe_fuses.2
    · by_cases hoe : collect_and_terms f cfg.oe_fuses.1 cfg.oe_fuses.2 = []
      · by_cases hd : cfg.terms_fuses.filterMap (live_row_terms f) = []
        · simp [hl, hoe, hd] at he
        · simp [hl, hoe, hd] at he
          rw [he] at ht
          exact Or.inr (mem_filterMap_live f cfg.terms_fuses t ht)
      · simp [hl, hoe] at he
        rw [he] at ht
        rcases List.mem_cons.mp ht with h | h
        · left
          exact h
        · exact Or.inr (mem_filterMap_live f cfg.terms_fuses t h)
    · by_cases hd : cfg.terms_fuses.filterMap (live_row_terms f) = []
      · simp [hl, hd] at he
      · simp [hl, hd] at he
        rw [he] at ht
        exact Or.inr (mem_filterMap_live f cfg.terms_fuses t ht)
  · simp [hac] at he

/-- C10: for every device variant, every macrocell of its configuration
table and every fuse map, every literal index in every AND node returned
by `get_macrocell_eqns` is strictly increasing within its node and lies
below 32 — the length of the variant's `get_input_names` table — so
rendering an equation never indexes the input-name table out of range. -/
theorem literal_indices_safe (f : Nat → Nat) (pinmap : List String) :
    ((P16L8.get_input_names f pinmap).length = 32 ∧
      ∀ cfg ∈ P16L8.macrocell_config,
        ∀ e ∈ P16L8.get_macrocell_eqns f pinmap cfg,
          ∀ t ∈ and_nodes e.2,
            List.Pairwise (· < ·) t ∧
              ∀ x ∈ t, x < (P16L8.get_input_names f pinmap).length) ∧
    ((G16V8MA.get_input_names f pinmap).length = 32 ∧
      ∀ cfg ∈ G16V8xx.macrocell_config,
        ∀ e ∈ G16V8MA.get_macrocell_eqns f pinmap cfg,
          ∀ t ∈ and_nodes e.2,
            List.Pairwise (· < ·) t ∧
              ∀ x ∈ t, x < (G16V8MA.get_input_names f pinmap).length) ∧
    ((G16V8MS.get_input_names f pinmap).length = 32 ∧
      ∀ cfg ∈ G16V8xx.macrocell_config,
        ∀ e ∈ G16V8MS.get_macrocell_eqns f pinmap cfg,
          ∀ t ∈ and_nodes e.2,
            List.Pairwise (· < ·) t ∧
              ∀ x ∈ t, x < (G16V8MS.get_input_names f pinmap).length) ∧
    ((G16V8AS.get_input_names f pinmap).length = 32 ∧
      ∀ cfg ∈ G16V8xx.macrocell_config,
        ∀ e ∈ G16V8AS.get_macrocell_eqns f pinmap cfg,
          ∀ t ∈ and_nodes e.2,
            List.Pairwise (· < ·) t ∧
              ∀ x ∈ t, x < (G16V8AS.get_input_names f pinmap).length) := by
  refine ⟨⟨p16l8_input_names_length f pinmap, ?_⟩,
    ⟨g16v8ma_input_names_length f pinmap, ?_⟩,
    ⟨g16v8ms_input_names_length f pinmap, ?_⟩,
    ⟨g16v8as_input_names_length f pinmap, ?_⟩⟩
  · intro cfg hcfg e he t ht
    rw [p16l8_input_names_length f pinmap]
    obtain ⟨hwoe, hwt⟩ := p16l8_widths cfg hcfg
    rcases p16l8_nodes_origin f pinmap cfg e he t ht with h | ⟨r, hr, h⟩
    · subst h
      exact collect32_good f cfg.oe_fuses.1 cfg.oe_fuses.2 hwoe
    · subst h
      exact collect32_good f r.1 r.2 (hwt r hr)
  · intro cfg hcfg e he t ht
    rw [g16v8ma_input_names_length f pinmap]
    obtain ⟨hwoe, hwt⟩ := g16v8_widths cfg hcfg
    rcases g16v8ma_nodes_origin f pinmap cfg e he t ht with h | ⟨r, hr, h⟩
    · subst h
      exact collect32_good f cfg.oe_fuses.1 cfg.oe_fuses.2 hwoe
    · subst h
      exact collect32_good f r.1 r.2 (hwt r hr)
  · intro cfg hcfg e he t ht
    rw [g16v8ms_input_names_length f pinmap]
    obtain ⟨hwoe, hwt⟩ := g16v8_widths cfg hcfg
    rcases g16v8ms_nodes_origin f pinmap cfg e he t ht with h | ⟨r, hr, h⟩
    · subst h
      exact collect32_good f cfg.oe_fuses.1 cfg.oe_fuses.2 hwoe
    · subst h
      exact collect32_good f r.1 r.2 (hwt r hr)
  · intro cfg hcfg e he t ht
    rw [g16v8as_input_names_length f pinmap]
    obtain ⟨hwoe, hwt⟩ := g16v8_widths cfg hcfg
    rcases g16v8as_nodes_origin f pinmap cfg e he t ht with h | ⟨r, hr, h⟩
    · subst h
      exact collect32_good f cfg.oe_fuses.1 cfg.oe_fuses.2 hwoe
    · subst h
      exact collect32_good f r.1 r.2 (hwt r hr)

/-- Witness for `literal_indices_safe`: a concrete equation of the pin-19
PAL16L8 macrocell on a concrete fuse map. -/
theorem literal_indices_safe_witness :
    List.Pairwise (· < ·) ([0] : List Nat) ∧
      ∀ x ∈ ([0] : List Nat),
        x < (P16L8.get_input_names ms_cex_fuse default_pinmap).length :=
  (literal_indices_safe ms_cex_fuse default_pinmap).1.2
    (P16L8.macrocell_config.headD ⟨0, (0, 0), []⟩) (by decide)
    ("PIN19", Expr.orE [[0]]) (by decide) [0] (by decide)

/-! ## Tokenizer non-termination at end of file (C8) -/

/-- C8: at end of file the inner read loop's state repeats unchanged — the
Python loop never terminates — and consequently on the input `*QF8`, whose
final command ends in neither `*` nor ETX, `jedec_commands` (and with it
`load_jedec`) never returns. -/
theorem tokenizer_hangs_at_eof :
    (∀ buffer : List Char, inner_step [] buffer = Sum.inr ([], buffer)) ∧
    jedec_commands ("*QF8".toList) = none ∧
    load_jedec ("*QF8".toList) = none := by
  refine ⟨fun buffer => rfl, ?_, ?_⟩ <;> rfl

/-! ## Last-write-wins semantics of `load_jedec` (C3) -/

/-- `digits_of` preserves the payload length. -/
theorem digits_of_length : ∀ (data : List Char) (ds : List Nat),
    digits_of data = some ds → ds.length = data.length := by
  intro data
  induction data with
  | nil =>
    intro ds hd
    cases hd
    rfl
  | cons c cs ih =>
    intro ds hd
    unfold digits_of at hd
    cases hc : char_digit c with
    | none => rw [hc] at hd; cases hd
    | some d =>
      rw [hc] at hd
      cases hrest : digits_of cs with
      | none => rw [hrest] at hd; cases hd
      | some ds2 =>
        rw [hrest] at hd
        cases hd
        simp [ih ds2 hrest]

/-- Writing an all-digit payload inside bounds succeeds, keeps the length,
and overwrites exactly the covered positions with the payload's digits. -/
theorem apply_write_spec : ∀ (data : List Char) (fm : List Nat) (pos : Nat) (ds : List Nat),
    digits_of data = some ds → pos + data.length ≤ fm.length →
    ∃ fm2, apply_write fm pos data = some fm2 ∧ fm2.length = fm.length ∧
      ∀ p, fm2.getD p 0 =
        if pos ≤ p ∧ p < pos + ds.length then ds.getD (p - pos) 0 else fm.getD p 0 := by
  intro data
  induction data with
  | nil =>
    intro fm pos ds hd _
    cases hd
    refine ⟨fm, rfl, rfl, fun p => ?_⟩
    rw [if_neg (by simp)]
  | cons c cs ih =>
    intro fm pos ds hd hb
    unfold digits_of at hd
    cases hc : char_digit c with
    | none => rw [hc] at hd; cases hd
    | some d =>
      rw [hc] at hd
      cases hrest : digits_of cs with
      | none => rw [hrest] at hd; cases hd
      | some ds2 =>
        rw [hrest] at hd
        cases hd
        have hpos : pos < fm.length := by
          simp only [List.length_cons] at hb
          omega
        obtain ⟨fm2, happ, hlen, hsp⟩ :=
          ih (fm.set pos d) (pos + 1) ds2 hrest
            (by simp only [List.length_set]; simp only [List.length_cons] at hb; omega)
        refine ⟨fm2, ?_, by rw [hlen, List.length_set], fun p => ?_⟩
        · simp only [apply_write, hc]
          rw [if_pos hpos]
          exact happ
        · rw [hsp p]
          by_cases h1 : pos + 1 ≤ p ∧ p < pos + 1 + ds2.length
          · rw [if_pos h1, if_pos (by simp only [List.length_cons]; omega)]
            have hsub : p - pos = (p - (pos + 1)) + 1 := by omega
            rw [hsub, List.getD_cons_succ]
          · rw [if_neg h1]
            by_cases h2 : p = pos
            · subst h2
              rw [if_pos (by simp only [List.length_cons]; omega)]
              simp only [Nat.sub_self, List.getD_cons_zero]
              rw [List.getD_eq_getElem?_getD, List.getElem?_set_self hpos]
              rfl
            · rw [if_neg (by simp only [List.length_cons]; omega)]
              rw [List.getD_eq_getElem?_getD, List.getElem?_set_ne (fun h => h2 h.symm),
                ← List.getD_eq_getElem?_getD]

/-- The write loop applies every parsed `L` command in file order; the
final value at each position is the last covering write's digit, over
whatever the position held initially. -/
theorem write_loop_spec : ∀ (fuse_list : List (List Char))
    (writes : List (Nat × List Nat)) (fm : List Nat),
    parse_writes fuse_list = some writes →
    (∀ w ∈ writes, w.1 + w.2.length ≤ fm.length) →
    ∃ fm2, write_loop fm fuse_list = some fm2 ∧ fm2.length = fm.length ∧
      ∀ p, fm2.getD p 0 = last_write_value writes (fm.getD p 0) p := by
  intro fuse_list
  induction fuse_list with
  | nil =>
    intro writes fm hp _
    cases hp
    exact ⟨fm, rfl, rfl, fun p => rfl⟩
  | cons c cs ih =>
    intro writes fm hp hb
    unfold parse_writes at hp
    cases hw : parse_write c with
    | none => rw [hw] at hp; cases hp
    | some w =>
      rw [hw] at hp
      cases hws : parse_writes cs with
      | none => rw [hws] at hp; cases hp
      | some ws =>
        rw [hws] at hp
        cases hp
        simp only [parse_write, Option.bind_eq_bind, Option.bind_eq_some,
          Option.some.injEq] at hw
        obtain ⟨pd, hsp, pos, hpi, ds, hds, hw⟩ := hw
        subst hw
        have hwb : pos + ds.length ≤ fm.length := hb (pos, ds) (List.mem_cons_self _ _)
        have hblen : pos + (pd.2.filter (fun ch => ch ≠ ' ')).length ≤ fm.length := by
          have hl := digits_of_length _ ds hds
          omega
        obtain ⟨fm1, happ, hlen1, hsp1⟩ :=
          apply_write_spec (pd.2.filter (fun ch => ch ≠ ' ')) fm pos ds hds hblen
        obtain ⟨fm2, hloop, hlen2, hsp2⟩ :=
          ih ws fm1 hws
            (by
              intro w2 hw2
              rw [hlen1]
              exact hb w2 (List.mem_cons_of_mem _ hw2))
        have hwc : write_cmd fm c = some fm1 := by
          simp only [write_cmd, hsp, hpi, Option.bind_eq_bind, Option.some_bind]
          exact happ
        refine ⟨fm2, ?_, by rw [hlen2, hlen1], fun p => ?_⟩
        · simp only [write_loop, hwc]
          exact hloop
        · rw [hsp2 p, hsp1 p]
          rfl

/-- C3: on a well-formed JEDEC input — one whose command stream terminates,
whose commands parse, which declares a fuse count `QF`, and whose `L`
writes all land inside `[0, QF)` — `load_jedec` returns an array of length
exactly `QF` in which every position holds the declared default value when
no `L` command covers it, and otherwise the digit written by the last `L`
command, in file order, that covers it (`last_write_value`). -/
theorem load_jedec_last_write_wins (input : List Char) (cmds : List (List Char))
    (acc : LoadAcc) (qf : Nat) (writes : List (Nat × List Nat))
    (h1 : jedec_commands input = some cmds)
    (h2 : process_loop ⟨none, 0, []⟩ cmds = some acc)
    (h3 : acc.num_fuses = some qf)
    (h4 : parse_writes acc.fuse_list = some writes)
    (h5 : ∀ w ∈ writes, w.1 + w.2.length ≤ qf) :
    ∃ fm, load_jedec input = some fm ∧ fm.length = qf ∧
      ∀ p, p < qf → fm.getD p 0 = last_write_value writes acc.default p := by
  obtain ⟨fm2, hw, hlen, hsp⟩ :=
    write_loop_spec acc.fuse_list writes (List.replicate qf acc.default) h4
      (by
        intro w hmem
        rw [List.length_replicate]
        exact h5 w hmem)
  refine ⟨fm2, ?_, by rw [hlen, List.length_replicate], ?_⟩
  · simp only [load_jedec, h1, h2, h3]
    exact hw
  · intro p hp
    rw [hsp p]
    have hrep : (List.replicate qf acc.default).getD p 0 = acc.default := by
      rw [List.getD_eq_getElem?_getD, List.getElem?_replicate_of_lt hp]
      rfl
    rw [hrep]

/-- Witness for `load_jedec_last_write_wins` on a concrete well-formed
JEDEC text with overlapping `L` commands and a non-zero default. -/
theorem load_jedec_last_write_wins_witness :
    ∃ fm, load_jedec ("*QF8*F1*L0 0101*L2 110*\x03".toList) = some fm ∧
      fm.length = 8 ∧
      ∀ p, p < 8 →
        fm.getD p 0 = last_write_value [(0, [0, 1, 0, 1]), (2, [1, 1, 0])] 1 p :=
  load_jedec_last_write_wins ("*QF8*F1*L0 0101*L2 110*\x03".toList)
    ["QF8".toList, "F1".toList, "L0 0101".toList, "L2 110".toList]
    ⟨some 8, 1, ["0 0101".toList, "2 110".toList]⟩ 8
    [(0, [0, 1, 0, 1]), (2, [1, 1, 0])]
    (by decide) (by decide) rfl (by decide) (by decide)

/-- Witness for `is_row_live_false_iff_dead_column` at a concrete row with
one dead column. -/
theorem is_row_live_false_iff_dead_column_witness :
    (is_term_nonzero one_dead_column_fuse 0 32 = false ↔
      ∃ k, k < 16 ∧ one_dead_column_fuse (0 + 2 * k) = 0 ∧
        one_dead_column_fuse (0 + 2 * k + 1) = 0) ∧
    (is_term_nonzero one_dead_column_fuse 0 32 = true ↔
      ∀ k, k < 16 → one_dead_column_fuse (0 + 2 * k) ≠ 0 ∨
        one_dead_column_fuse (0 + 2 * k + 1) ≠ 0) :=
  is_row_live_false_iff_dead_column one_dead_column_fuse 0
